import Mathlib

/-!
Verification of the rapyer transactional atomic-mutation engine.

Shallow embedding of the core operations of the rapyer repository:
the atomic field wrappers (rapyer/types/integer.py, string.py, float.py),
the Lua script bodies (rapyer/scripts.py), the script registry and its
NOSCRIPT recovery protocol (rapyer/scripts/registry.py), the transaction
pipeline flush (rapyer/base.py, apipeline), the TTL policy
(rapyer/base.py, asave / refresh_ttl_if_needed / aget / aload / afind),
the safe-load deserialization policy (rapyer/base.py,
make_pickle_field_serializer; rapyer/types/dct.py, full_deserializer),
batched deletion (rapyer/utils/redis.py) and key-based lookup
(rapyer/base.py, afind).

Numbers are modelled as unbounded integers; Lua arithmetic, which runs on
IEEE doubles, is idealized as exact arithmetic over the rationals with
math.floor modelled as the rational floor function.
-/

namespace Rapyer

/-! ## Arithmetic helpers relating rational floors to Python floor division -/

/-- Flooring division of integers is invariant under negating both arguments. -/
theorem fdiv_neg_neg (a b : Int) : Int.fdiv (-a) (-b) = Int.fdiv a b := by
  rcases eq_or_ne b 0 with rfl | hb0
  · simp
  · rcases a with (_ | m) | m <;> rcases b with (_ | n) | n <;>
      first
        | rfl
        | exact absurd rfl hb0

/-- The rational floor of an exact integer quotient is integer flooring division.
This connects the Lua expression math.floor(value / operand), idealized over
exact arithmetic, with the Python expression value // operand. -/
theorem floor_div_eq_fdiv (a b : ℤ) (hb : b ≠ 0) :
    ⌊(a : ℚ) / (b : ℚ)⌋ = Int.fdiv a b := by
  have hpos : ∀ (x y : ℤ), 0 < y → ⌊(x : ℚ) / (y : ℚ)⌋ = Int.fdiv x y := by
    intro x y hy
    have h0 : (0 : ℚ) < (y : ℚ) := by exact_mod_cast hy
    rw [Int.floor_eq_iff]
    constructor
    · rw [le_div_iff₀ h0]
      have hfm := Int.fmod_add_fdiv x y
      have hnn := Int.fmod_nonneg' x hy
      have hble : y * Int.fdiv x y ≤ x := by omega
      rw [mul_comm]
      exact_mod_cast hble
    · rw [div_lt_iff₀ h0]
      have hlt := Int.lt_fdiv_add_one_mul_self x hy
      have hc : (x : ℚ) < ((Int.fdiv x y + 1 : ℤ) : ℚ) * (y : ℚ) := by exact_mod_cast hlt
      calc (x : ℚ) < ((Int.fdiv x y + 1 : ℤ) : ℚ) * (y : ℚ) := hc
        _ = ((Int.fdiv x y : ℤ) + 1) * (y : ℚ) := by push_cast; ring
  rcases lt_or_gt_of_ne hb with hneg | hp
  · have hkey := hpos (-a) (-b) (by omega)
    rw [fdiv_neg_neg] at hkey
    rw [← hkey]
    congr 1
    push_cast
    rw [neg_div_neg_eq]
  · exact hpos a b hp

/-! ## C3: the remove_range Lua script (rapyer/scripts.py, _REMOVE_RANGE_SCRIPT_TEMPLATE)

The script receives a zero-based start index and end index (ARGV[2], ARGV[3]),
reads the JSON array at the given path, normalizes negative indices by adding
the array length, clamps, and either no-ops or rewrites the array without the
index range [start, end). The Lua loops build
new_arr = arr[1 .. start_idx] ++ arr[end_idx + 1 .. n] in one-based indexing,
which is List.take start_idx ++ List.drop end_idx in zero-based indexing. -/

/-- Lua line: if start_idx < 0 then start_idx = n + start_idx end, followed by
the lower clamp if start_idx < 0 then start_idx = 0 end. -/
def luaStartIdx (n : ℤ) (start_idx : ℤ) : ℤ :=
  if (if start_idx < 0 then n + start_idx else start_idx) < 0 then 0
  else (if start_idx < 0 then n + start_idx else start_idx)

/-- Lua lines for the end index: negative resolution, the lower clamp at 0 and
the upper clamp if end_idx > n then end_idx = n end. -/
def luaEndIdx (n : ℤ) (end_idx : ℤ) : ℤ :=
  if (if (if end_idx < 0 then n + end_idx else end_idx) < 0 then 0
      else (if end_idx < 0 then n + end_idx else end_idx)) > n then n
  else (if (if end_idx < 0 then n + end_idx else end_idx) < 0 then 0
      else (if end_idx < 0 then n + end_idx else end_idx))

/-- Translation of the remove_range Lua script body, applied to the decoded
array. Mirrors the source: negative index resolution and clamping as in
luaStartIdx and luaEndIdx, the early-return (no-op) guard
if start_idx >= n or start_idx >= end_idx then return true end, and the two
copy loops, which build arr[1 .. start_idx] ++ arr[end_idx + 1 .. n] in
one-based indexing, i.e. take start_idx ++ drop end_idx in zero-based terms. -/
def remove_range {α : Type} (arr : List α) (start_idx end_idx : ℤ) : List α :=
  if luaStartIdx arr.length start_idx ≥ (arr.length : ℤ) ∨
      luaStartIdx arr.length start_idx ≥ luaEndIdx arr.length end_idx then arr
  else arr.take (luaStartIdx arr.length start_idx).toNat ++
      arr.drop (luaEndIdx arr.length end_idx).toNat

/-- Resolution of one bound as the specification words it: replace a negative
bound by length + bound, then clamp into [0, n]. -/
def specResolve (n : ℤ) (i : ℤ) : ℤ :=
  max 0 (min n (if i < 0 then n + i else i))

/-- Range removal as the specification words it: resolve both bounds with
specResolve, no-op when the resolved start is at least n or at least the
resolved end, and otherwise drop exactly the elements at resolved indices
[start, end). -/
def removeRangeSpec {α : Type} (arr : List α) (start_idx end_idx : ℤ) : List α :=
  if specResolve arr.length start_idx ≥ (arr.length : ℤ) ∨
      specResolve arr.length start_idx ≥ specResolve arr.length end_idx then arr
  else arr.take (specResolve arr.length start_idx).toNat ++
      arr.drop (specResolve arr.length end_idx).toNat

/-- The script agrees with the specification resolution on every list and
every integer bound pair. -/
theorem remove_range_eq_spec {α : Type} (arr : List α) (s e : ℤ) :
    remove_range arr s e = removeRangeSpec arr s e := by
  unfold remove_range removeRangeSpec luaStartIdx luaEndIdx specResolve
  split_ifs <;> first
    | rfl
    | omega
    | (congr 1 <;> [skip; skip] <;> congr 1 <;> omega)

/-- C3: range removal resolves negative bounds python-slice-style, clamps into
[0, n], no-ops (returning the list unchanged) whenever the resolved start is at
least the length or at least the resolved end - in particular whenever
start = end - and otherwise removes exactly the elements at resolved indices
[start, end); on the 5-element list a b c d e, removing (1,3) yields a d e,
removing (-2,5) yields a b c, removing (3,100) yields a b c, and removing
(10,20) leaves the list unchanged. -/
theorem remove_range_correct :
    (∀ (α : Type) (arr : List α) (s e : ℤ),
        remove_range arr s e = removeRangeSpec arr s e) ∧
    (∀ (α : Type) (arr : List α) (s : ℤ), remove_range arr s s = arr) ∧
    remove_range ["a", "b", "c", "d", "e"] 1 3 = ["a", "d", "e"] ∧
    remove_range ["a", "b", "c", "d", "e"] (-2) 5 = ["a", "b", "c"] ∧
    remove_range ["a", "b", "c", "d", "e"] 3 100 = ["a", "b", "c"] ∧
    remove_range ["a", "b", "c", "d", "e"] 10 20 = ["a", "b", "c", "d", "e"] := by
  refine ⟨fun α arr s e => remove_range_eq_spec arr s e, fun α arr s => ?_, ?_, ?_, ?_, ?_⟩
  · unfold remove_range luaStartIdx luaEndIdx
    split_ifs <;> first
      | rfl
      | omega
  · decide
  · decide
  · decide
  · decide

/-! ## C1 and C8: atomic field wrapper operators (rapyer/types/integer.py,
rapyer/types/string.py) and the numeric Lua scripts (rapyer/scripts.py)

A wrapper operator runs entirely in process. When a transaction pipeline is
active (self.pipeline is truthy) it buffers one deferred command on it; it
never talks to the store directly (there is no awaited client call in any of
the operators), and it always returns a freshly built wrapper holding the
locally computed value. -/

/-- Script name constant NUM_MUL_SCRIPT_NAME from rapyer/scripts.py. -/
def NUM_MUL_SCRIPT_NAME : String := "num_mul"

/-- Script name constant NUM_FLOORDIV_SCRIPT_NAME from rapyer/scripts.py. -/
def NUM_FLOORDIV_SCRIPT_NAME : String := "num_floordiv"

/-- Script name constant NUM_MOD_SCRIPT_NAME from rapyer/scripts.py. -/
def NUM_MOD_SCRIPT_NAME : String := "num_mod"

/-- Script name constant NUM_POW_SCRIPT_NAME from rapyer/scripts.py. -/
def NUM_POW_SCRIPT_NAME : String := "num_pow"

/-- Script name constant STR_APPEND_SCRIPT_NAME from rapyer/scripts.py. -/
def STR_APPEND_SCRIPT_NAME : String := "str_append"

/-- One deferred command recorded on an open transaction pipeline: either a
native JSON.NUMINCRBY with its operand, or an EVALSHA of a named server-side
script with a numeric or string operand, always addressed by document key and
JSON field path. -/
inductive DeferredCmd where
  | numincrby (key path : String) (amount : ℤ)
  | scriptNum (script : String) (key path : String) (operand : ℤ)
  | scriptStr (script : String) (key path : String) (operand : String)
  deriving DecidableEq

/-- Result of one in-process wrapper operator application: the new local
value, the transaction buffer afterwards (None mirrors no active pipeline),
and the list of commands issued immediately against the store, which the
source never does inside these operators, so it is empty in every branch. -/
structure OpResult (α : Type) where
  value : α
  pipe : Option (List DeferredCmd)
  immediate : List DeferredCmd
  deriving DecidableEq

/-- RedisInt.__iadd__: when a pipeline is active, buffer
pipeline.json().numincrby(key, json_path, other); always return the class of
self + other. -/
def redisInt_iadd (key path : String) (v other : ℤ)
    (pipe : Option (List DeferredCmd)) : OpResult ℤ :=
  { value := v + other
    pipe := pipe.map (fun cmds => cmds ++ [DeferredCmd.numincrby key path other])
    immediate := [] }

/-- RedisInt.__isub__: when a pipeline is active, buffer
pipeline.json().numincrby(key, json_path, -other); always return the class of
self - other. -/
def redisInt_isub (key path : String) (v other : ℤ)
    (pipe : Option (List DeferredCmd)) : OpResult ℤ :=
  { value := v - other
    pipe := pipe.map (fun cmds => cmds ++ [DeferredCmd.numincrby key path (-other)])
    immediate := [] }

/-- RedisInt.__imul__: when a pipeline is active, buffer
run_sha(pipeline, NUM_MUL_SCRIPT_NAME, 1, key, json_path, other); always
return the class of self * other. -/
def redisInt_imul (key path : String) (v other : ℤ)
    (pipe : Option (List DeferredCmd)) : OpResult ℤ :=
  { value := v * other
    pipe := pipe.map (fun cmds =>
      cmds ++ [DeferredCmd.scriptNum NUM_MUL_SCRIPT_NAME key path other])
    immediate := [] }

/-- RedisInt.__ifloordiv__: floor division of the local value, buffering the
num_floordiv script with the operand when a pipeline is active. Python floor
division on integers is Int.fdiv. -/
def redisInt_ifloordiv (key path : String) (v other : ℤ)
    (pipe : Option (List DeferredCmd)) : OpResult ℤ :=
  { value := Int.fdiv v other
    pipe := pipe.map (fun cmds =>
      cmds ++ [DeferredCmd.scriptNum NUM_FLOORDIV_SCRIPT_NAME key path other])
    immediate := [] }

/-- RedisInt.__imod__: modulo of the local value, buffering the num_mod script
with the operand when a pipeline is active. The Python remainder takes the
sign of the divisor, which is Int.fmod. -/
def redisInt_imod (key path : String) (v other : ℤ)
    (pipe : Option (List DeferredCmd)) : OpResult ℤ :=
  { value := Int.fmod v other
    pipe := pipe.map (fun cmds =>
      cmds ++ [DeferredCmd.scriptNum NUM_MOD_SCRIPT_NAME key path other])
    immediate := [] }

/-- RedisInt.__ipow__ restricted to a natural exponent, the case in which
Python integer exponentiation stays an integer: buffers the num_pow script
with the operand when a pipeline is active and returns self ** other. -/
def redisInt_ipow (key path : String) (v : ℤ) (other : ℕ)
    (pipe : Option (List DeferredCmd)) : OpResult ℤ :=
  { value := v ^ other
    pipe := pipe.map (fun cmds =>
      cmds ++ [DeferredCmd.scriptNum NUM_POW_SCRIPT_NAME key path (other : ℤ)])
    immediate := [] }

/-- RedisStr.__iadd__: when a pipeline is active, buffer
run_sha(pipeline, STR_APPEND_SCRIPT_NAME, 1, key, json_path, other); always
return the class of self + other, i.e. the concatenation. -/
def redisStr_iadd (key path : String) (s other : String)
    (pipe : Option (List DeferredCmd)) : OpResult String :=
  { value := s ++ other
    pipe := pipe.map (fun cmds =>
      cmds ++ [DeferredCmd.scriptStr STR_APPEND_SCRIPT_NAME key path other])
    immediate := [] }

/-- Body of the num_mul Lua script: result = value * operand, written back by
JSON.SET. -/
def luaNumMul (value operand : ℤ) : ℤ := value * operand

/-- Body of the num_floordiv Lua script: result = math.floor(value / operand),
with Lua division idealized as exact rational division. -/
def luaNumFloordiv (value operand : ℤ) : ℤ := ⌊(value : ℚ) / (operand : ℚ)⌋

/-- Body of the num_mod Lua script: result = value % operand, where the Lua
remainder is defined as value - math.floor(value / operand) * operand. -/
def luaNumMod (value operand : ℤ) : ℤ :=
  value - ⌊(value : ℚ) / (operand : ℚ)⌋ * operand

/-- Body of the num_pow Lua script: result = math.floor(value ^ operand), the
exponentiation idealized as exact rational arithmetic, for a natural
exponent. -/
def luaNumPow (value : ℤ) (operand : ℕ) : ℤ := ⌊(value : ℚ) ^ operand⌋

/-- Effect of flushing one deferred numeric command against the stored value
at its key and path: JSON.NUMINCRBY adds its amount; an EVALSHA runs the Lua
body registered under the script name; other commands leave the number
alone. -/
def applyNumCmd (stored : ℤ) (c : DeferredCmd) : ℤ :=
  match c with
  | DeferredCmd.numincrby _ _ amount => stored + amount
  | DeferredCmd.scriptNum script _ _ operand =>
      if script = NUM_MUL_SCRIPT_NAME then luaNumMul stored operand
      else if script = NUM_FLOORDIV_SCRIPT_NAME then luaNumFloordiv stored operand
      else if script = NUM_MOD_SCRIPT_NAME then luaNumMod stored operand
      else if script = NUM_POW_SCRIPT_NAME then luaNumPow stored operand.toNat
      else stored
  | DeferredCmd.scriptStr _ _ _ _ => stored

/-- C1: with no transaction context active (pipeline None), a bare in-process
operator issues no store command at all - no immediate command, and no
deferred command either - and returns the operator applied to the old local
value; with a transaction context active, the same operator additionally
appends exactly one deferred command built from the operand (for integer +=
a single increment-by-operand, for -= an increment by the negated operand,
for text += the append script with the suffix operand), never a
read-modify-write against fresh store state. -/
theorem bare_operator_frame :
    (∀ (key path : String) (v o : ℤ),
        redisInt_iadd key path v o none =
          { value := v + o, pipe := none, immediate := [] } ∧
        redisInt_isub key path v o none =
          { value := v - o, pipe := none, immediate := [] }) ∧
    (∀ (key path s o : String),
        redisStr_iadd key path s o none =
          { value := s ++ o, pipe := none, immediate := [] }) ∧
    (∀ (key path : String) (v o : ℤ) (buf : List DeferredCmd),
        redisInt_iadd key path v o (some buf) =
          { value := v + o
            pipe := some (buf ++ [DeferredCmd.numincrby key path o])
            immediate := [] } ∧
        redisInt_isub key path v o (some buf) =
          { value := v - o
            pipe := some (buf ++ [DeferredCmd.numincrby key path (-o)])
            immediate := [] }) ∧
    (∀ (key path s o : String) (buf : List DeferredCmd),
        redisStr_iadd key path s o (some buf) =
          { value := s ++ o
            pipe := some (buf ++ [DeferredCmd.scriptStr STR_APPEND_SCRIPT_NAME key path o])
            immediate := [] }) :=
  ⟨fun _ _ _ _ => ⟨rfl, rfl⟩, fun _ _ _ _ => rfl,
   fun _ _ _ _ _ => ⟨rfl, rfl⟩, fun _ _ _ _ _ => rfl⟩

/-- C8: for each deferred numeric operator, the value that the enqueued
server-side script writes to the store when flushed against stored value v
equals the speculative local value the operator returned: v * d for *=,
v // d for //=, v % d for %= (divisor nonzero) and v ** d for **= with a
natural exponent. Each operator enqueues exactly that one script command. -/
theorem deferred_script_matches_local :
    (∀ (key path : String) (v d : ℤ) (buf : List DeferredCmd),
        (redisInt_imul key path v d (some buf)).pipe =
          some (buf ++ [DeferredCmd.scriptNum NUM_MUL_SCRIPT_NAME key path d]) ∧
        applyNumCmd v (DeferredCmd.scriptNum NUM_MUL_SCRIPT_NAME key path d) =
          (redisInt_imul key path v d (some buf)).value) ∧
    (∀ (key path : String) (v d : ℤ) (buf : List DeferredCmd), d ≠ 0 →
        (redisInt_ifloordiv key path v d (some buf)).pipe =
          some (buf ++ [DeferredCmd.scriptNum NUM_FLOORDIV_SCRIPT_NAME key path d]) ∧
        applyNumCmd v (DeferredCmd.scriptNum NUM_FLOORDIV_SCRIPT_NAME key path d) =
          (redisInt_ifloordiv key path v d (some buf)).value) ∧
    (∀ (key path : String) (v d : ℤ) (buf : List DeferredCmd), d ≠ 0 →
        (redisInt_imod key path v d (some buf)).pipe =
          some (buf ++ [DeferredCmd.scriptNum NUM_MOD_SCRIPT_NAME key path d]) ∧
        applyNumCmd v (DeferredCmd.scriptNum NUM_MOD_SCRIPT_NAME key path d) =
          (redisInt_imod key path v d (some buf)).value) ∧
    (∀ (key path : String) (v : ℤ) (d : ℕ) (buf : List DeferredCmd),
        (redisInt_ipow key path v d (some buf)).pipe =
          some (buf ++ [DeferredCmd.scriptNum NUM_POW_SCRIPT_NAME key path (d : ℤ)]) ∧
        applyNumCmd v (DeferredCmd.scriptNum NUM_POW_SCRIPT_NAME key path (d : ℤ)) =
          (redisInt_ipow key path v d (some buf)).value) := by
  refine ⟨fun key path v d buf => ⟨rfl, ?_⟩,
          fun key path v d buf hd => ⟨rfl, ?_⟩,
          fun key path v d buf hd => ⟨rfl, ?_⟩,
          fun key path v d buf => ⟨rfl, ?_⟩⟩
  · simp [applyNumCmd, luaNumMul, redisInt_imul]
  · simp only [applyNumCmd, NUM_FLOORDIV_SCRIPT_NAME, NUM_MUL_SCRIPT_NAME,
      redisInt_ifloordiv, luaNumFloordiv]
    rw [if_pos trivial]
    exact floor_div_eq_fdiv v d hd
  · simp only [applyNumCmd, NUM_MOD_SCRIPT_NAME, NUM_MUL_SCRIPT_NAME,
      NUM_FLOORDIV_SCRIPT_NAME, redisInt_imod, luaNumMod]
    rw [if_pos trivial]
    rw [if_neg (by decide), if_neg (by decide)]
    rw [floor_div_eq_fdiv v d hd, Int.fmod_def]
    ring
  · simp only [applyNumCmd, NUM_POW_SCRIPT_NAME, NUM_MUL_SCRIPT_NAME,
      NUM_FLOORDIV_SCRIPT_NAME, NUM_MOD_SCRIPT_NAME, redisInt_ipow, luaNumPow]
    rw [if_pos trivial]
    rw [if_neg (by decide), if_neg (by decide), if_neg (by decide)]
    rw [Int.toNat_natCast]
    have hcast : ((v : ℚ)) ^ d = ((v ^ d : ℤ) : ℚ) := by push_cast; ring
    rw [hcast, Int.floor_intCast]

/-- Witness for C8 at concrete inputs: stored value 7 with operand -2 for
floor division and stored value -7 with operand 3 for modulo. -/
theorem deferred_script_matches_local_witness :
    applyNumCmd 7 (DeferredCmd.scriptNum NUM_FLOORDIV_SCRIPT_NAME "Doc:1" ".n" (-2)) =
      (redisInt_ifloordiv "Doc:1" ".n" 7 (-2) (some [])).value ∧
    applyNumCmd (-7) (DeferredCmd.scriptNum NUM_MOD_SCRIPT_NAME "Doc:1" ".n" 3) =
      (redisInt_imod "Doc:1" ".n" (-7) 3 (some [])).value :=
  ⟨(deferred_script_matches_local.2.1 "Doc:1" ".n" 7 (-2) [] (by decide)).2,
   (deferred_script_matches_local.2.2.1 "Doc:1" ".n" (-7) 3 [] (by decide)).2⟩

/-! ## C2: script registry and NOSCRIPT recovery (rapyer/scripts/registry.py)

The registry caches one server handle (sha) per logical script name in the
process-wide table of registered script shas. register_scripts walks the whole
catalog and stores a fresh handle for each entry. arun_sha invokes by cached
handle, and on a NoScriptError re-registers the full catalog once, retries
once, and converts a second NoScriptError into PersistentNoScriptError. The
server is modelled as an oracle: load is the content-addressed upload, and
fails says whether the k-th EVALSHA round trip of a call reports NOSCRIPT
(the script cache may be flushed at any moment between round trips). -/

/-- Oracle model of the Redis server as seen by the registry: script_load
returns a content-addressed handle, and the k-th evalsha round trip of one
arun_sha call either succeeds with a value or raises NoScriptError. -/
structure ScriptServer where
  load : String → String
  fails : ℕ → Bool
  ret : ℕ → ℤ

/-- register_scripts from rapyer/scripts/registry.py: iterate over the whole
script catalog, upload each body, and replace the cached handle of every
entry in the registered-sha table. -/
def register_scripts (env : ScriptServer) (catalog : List (String × String))
    (regs : String → Option String) : String → Option String :=
  catalog.foldl
    (fun r entry => fun n => if n = entry.1 then some (env.load entry.2) else r n)
    regs

/-- Errors surfaced by the registry: ScriptsNotInitializedError when a name
has no cached handle, and PersistentNoScriptError when the NOSCRIPT condition
survives the single re-registration. -/
inductive RegistryError where
  | scriptsNotLoaded
  | persistentNoScript
  deriving DecidableEq

/-- Full outcome of one arun_sha call: its result, how many EVALSHA round
trips it made, how many times it re-registered the catalog, and the
registered-sha table afterwards. -/
structure ARunOutcome where
  result : Except RegistryError ℤ
  evalshaCalls : ℕ
  registrations : ℕ
  finalRegs : String → Option String

/-- arun_sha from rapyer/scripts/registry.py: look up the cached handle
(raising ScriptsNotInitializedError when absent), call EVALSHA, and on
NoScriptError run handle_noscript_error - which is register_scripts on the
full catalog - re-fetch the handle and retry exactly once, converting a
second NoScriptError into PersistentNoScriptError. -/
def arun_sha (env : ScriptServer) (catalog : List (String × String))
    (regs : String → Option String) (name : String) : ARunOutcome :=
  match regs name with
  | none => ⟨Except.error RegistryError.scriptsNotLoaded, 0, 0, regs⟩
  | some _ =>
    if env.fails 0 = false then ⟨Except.ok (env.ret 0), 1, 0, regs⟩
    else
      match register_scripts env catalog regs name with
      | none =>
          ⟨Except.error RegistryError.scriptsNotLoaded, 1, 1,
            register_scripts env catalog regs⟩
      | some _ =>
        if env.fails 1 = false then
          ⟨Except.ok (env.ret 1), 2, 1, register_scripts env catalog regs⟩
        else
          ⟨Except.error RegistryError.persistentNoScript, 2, 1,
            register_scripts env catalog regs⟩

/-- Names untouched by the catalog keep their cached handle. -/
theorem register_scripts_not_mem (env : ScriptServer) :
    ∀ (catalog : List (String × String)) (regs : String → Option String)
      (nm : String), nm ∉ catalog.map Prod.fst →
      register_scripts env catalog regs nm = regs nm := by
  intro catalog
  induction catalog with
  | nil => intro regs nm _; rfl
  | cons e rest ih =>
      intro regs nm hnm
      simp only [List.map_cons, List.mem_cons, not_or] at hnm
      unfold register_scripts
      rw [List.foldl_cons]
      have hstep := ih (fun n => if n = e.1 then some (env.load e.2) else regs n) nm hnm.2
      unfold register_scripts at hstep
      rw [hstep]
      exact if_neg hnm.1

/-- Re-registration replaces the cached handle of every catalog entry with
the freshly uploaded one. -/
theorem register_scripts_replaces_all (env : ScriptServer) :
    ∀ (catalog : List (String × String)) (regs : String → Option String)
      (nm bd : String), (catalog.map Prod.fst).Nodup → (nm, bd) ∈ catalog →
      register_scripts env catalog regs nm = some (env.load bd) := by
  intro catalog
  induction catalog with
  | nil => intro regs nm bd _ hmem; cases hmem
  | cons e rest ih =>
      intro regs nm bd hnodup hmem
      simp only [List.map_cons, List.nodup_cons] at hnodup
      rcases List.mem_cons.mp hmem with heq | hrest
      · unfold register_scripts
        rw [List.foldl_cons]
        have hn1 : nm = e.1 := congrArg Prod.fst heq
        have hb2 : bd = e.2 := congrArg Prod.snd heq
        have hnm : nm ∉ rest.map Prod.fst := by
          rw [hn1]
          exact hnodup.1
        have hstep := register_scripts_not_mem env rest
          (fun n => if n = e.1 then some (env.load e.2) else regs n) nm hnm
        unfold register_scripts at hstep
        rw [hstep]
        show (if nm = e.1 then some (env.load e.2) else regs nm) = some (env.load bd)
        rw [if_pos hn1, hb2]
      · unfold register_scripts
        rw [List.foldl_cons]
        exact ih (fun n => if n = e.1 then some (env.load e.2) else regs n) nm bd
          hnodup.2 hrest

/-- C2: a first NOSCRIPT failure triggers exactly one full catalog
re-registration, replacing all cached handles together, and exactly one
retry; a successful retry returns its value, while a second NOSCRIPT raises
the distinct persistent error; in every case at most two EVALSHA round trips
and at most one re-registration happen, so there is no unbounded looping, and
without a first failure the registry is left untouched. -/
theorem arun_sha_recovery :
    (∀ (env : ScriptServer) (catalog : List (String × String))
        (regs : String → Option String) (name sha : String),
        regs name = some sha → env.fails 0 = false →
        arun_sha env catalog regs name =
          ⟨Except.ok (env.ret 0), 1, 0, regs⟩) ∧
    (∀ (env : ScriptServer) (catalog : List (String × String))
        (regs : String → Option String) (name bd sha : String),
        regs name = some sha → env.fails 0 = true →
        (catalog.map Prod.fst).Nodup → (name, bd) ∈ catalog →
        (arun_sha env catalog regs name).registrations = 1 ∧
        (arun_sha env catalog regs name).finalRegs =
          register_scripts env catalog regs ∧
        (arun_sha env catalog regs name).finalRegs name = some (env.load bd) ∧
        (env.fails 1 = false →
          (arun_sha env catalog regs name).result = Except.ok (env.ret 1)) ∧
        (env.fails 1 = true →
          (arun_sha env catalog regs name).result =
            Except.error RegistryError.persistentNoScript)) ∧
    (∀ (env : ScriptServer) (catalog : List (String × String))
        (regs : String → Option String) (name : String),
        (arun_sha env catalog regs name).evalshaCalls ≤ 2 ∧
        (arun_sha env catalog regs name).registrations ≤ 1) := by
  refine ⟨?_, ?_, ?_⟩
  · intro env catalog regs name sha hsha hf0
    unfold arun_sha
    rw [hsha]
    simp [hf0]
  · intro env catalog regs name bd sha hsha hf0 hnodup hmem
    have hreplaced := register_scripts_replaces_all env catalog regs name bd hnodup hmem
    unfold arun_sha
    rw [hsha]
    simp only [hf0]
    rw [hreplaced]
    rcases hf1 : env.fails 1 with hv | hv <;> simp [hreplaced]
  · intro env catalog regs name
    unfold arun_sha
    rcases regs name with _ | sha
    · simp
    · rcases hf0 : env.fails 0 with hv | hv
      · simp
      · simp only [hf0]
        rcases hreg : register_scripts env catalog regs name with _ | sha2 <;> simp
        rcases hf1 : env.fails 1 with hv1 | hv1 <;> simp

/-- Witness for C2 with a concrete two-entry catalog, a cached handle for the
num_mul script and a server whose first EVALSHA reports NOSCRIPT and whose
retry succeeds. -/
theorem arun_sha_recovery_witness :
    (arun_sha
        ⟨fun bd => String.append "sha-" bd, fun k => k = 0, fun _ => 42⟩
        [("num_mul", "body-mul"), ("num_mod", "body-mod")]
        (fun n => if n = "num_mul" then some "stale" else none)
        "num_mul").registrations = 1 ∧
    (arun_sha
        ⟨fun bd => String.append "sha-" bd, fun k => k = 0, fun _ => 42⟩
        [("num_mul", "body-mul"), ("num_mod", "body-mod")]
        (fun n => if n = "num_mul" then some "stale" else none)
        "num_mul").finalRegs "num_mul" = some "sha-body-mul" ∧
    (arun_sha
        ⟨fun bd => String.append "sha-" bd, fun k => k = 0, fun _ => 42⟩
        [("num_mul", "body-mul"), ("num_mod", "body-mod")]
        (fun n => if n = "num_mul" then some "stale" else none)
        "num_mul").result = Except.ok 42 := by
  have h := arun_sha_recovery.2.1
    ⟨fun bd => String.append "sha-" bd, fun k => k = 0, fun _ => 42⟩
    [("num_mul", "body-mul"), ("num_mod", "body-mod")]
    (fun n => if n = "num_mul" then some "stale" else none)
    "num_mul" "body-mul" "stale" (by simp) (by decide) (by decide) (by decide)
  refine ⟨h.1, ?_, h.2.2.2.1 (by decide)⟩
  have h2 := h.2.2.1
  simpa using h2

/-! ## C4: NOSCRIPT recovery during a transaction flush (rapyer/base.py,
apipeline)

The flush executes the buffered pipeline as one transaction. On
NoScriptError it re-registers the scripts and opens a fresh transactional
retry pipeline, into which it copies only the commands of the backup whose
argument vector starts with EVALSHA - not the whole buffer. A NoScriptError
from the retry is converted into PersistentNoScriptError. -/

/-- One raw buffered pipeline command, as redis-py keeps it on
pipe.command_stack: the argument vector, whose first entry names the
command. -/
abbrev RawCmd := List String

/-- Selector used by the source to pick the commands to replay:
args[0] == "EVALSHA". -/
def isEvalsha (c : RawCmd) : Bool := c.head? = some "EVALSHA"

/-- Outcome of one apipeline flush: the commands issued by the first
round trip, the commands issued by the retry round trip (empty when no retry
ran), how many times the script catalog was re-registered, and the result. -/
structure FlushOutcome where
  firstIssued : List RawCmd
  retryIssued : List RawCmd
  registrations : ℕ
  result : Except RegistryError Unit

/-- Flush protocol of apipeline in rapyer/base.py: execute all buffered
commands as one transaction; when that raises NoScriptError, re-register the
scripts once and retry, in a fresh transactional pipeline, exactly the
backed-up commands whose argument vector starts with EVALSHA; a NoScriptError
from the retry becomes PersistentNoScriptError. The booleans say whether the
first execute and the retry execute report NOSCRIPT. -/
def apipelineFlush (cmds : List RawCmd) (noscript1 noscript2 : Bool) :
    FlushOutcome :=
  if noscript1 = false then ⟨cmds, [], 0, Except.ok ()⟩
  else if noscript2 = false then
    ⟨cmds, cmds.filter isEvalsha, 1, Except.ok ()⟩
  else
    ⟨cmds, cmds.filter isEvalsha, 1,
      Except.error RegistryError.persistentNoScript⟩

/-- Counterexample to C4 as stated: with one buffered plain JSON.SET and one
buffered EVALSHA, a flush that hits NOSCRIPT and recovers does not re-issue
all buffered commands - the retry re-issues only the EVALSHA command. -/
theorem apipeline_full_replay_counterexample :
    (apipelineFlush
        [["JSON.SET", "Doc:1", "$.n", "5"], ["EVALSHA", "abc", "1", "Doc:1"]]
        true false).retryIssued ≠
      [["JSON.SET", "Doc:1", "$.n", "5"], ["EVALSHA", "abc", "1", "Doc:1"]] := by
  decide

/-- C4 amended: on a NOSCRIPT failure of the transactional flush, the
recovery retry re-issues exactly the script-based (EVALSHA) buffered
commands, in order, in one fresh transactional pipeline - not the whole
buffer - after a single re-registration; a clean first execute retries
nothing, and a NOSCRIPT on the retry surfaces the persistent error. -/
theorem apipeline_retry_scripted_only (cmds : List RawCmd) :
    (apipelineFlush cmds false false).retryIssued = [] ∧
    (apipelineFlush cmds false false).firstIssued = cmds ∧
    (apipelineFlush cmds true false).retryIssued = cmds.filter isEvalsha ∧
    (apipelineFlush cmds true false).registrations = 1 ∧
    (apipelineFlush cmds true false).result = Except.ok () ∧
    (apipelineFlush cmds true true).retryIssued = cmds.filter isEvalsha ∧
    (apipelineFlush cmds true true).result =
      Except.error RegistryError.persistentNoScript :=
  ⟨rfl, rfl, rfl, rfl, rfl, rfl, rfl⟩

/-! ## C5: the TTL policy (rapyer/base.py and rapyer/config.py)

Per document type the RedisConfig Meta carries ttl (an optional duration) and
the refresh_ttl flag. The effect of each read/write entry point on the
remaining expiry of a key is modelled as a function from the expiry before
the call (None when the key has no expiry) to the expiry after it. -/

/-- The TTL-relevant part of RedisConfig: ttl and refresh_ttl. -/
structure TtlMeta where
  ttl : Option ℕ
  refresh_ttl : Bool

/-- AtomicRedisModel.should_refresh: cls.Meta.refresh_ttl and
cls.Meta.ttl is not None. -/
def should_refresh (m : TtlMeta) : Bool := m.refresh_ttl && m.ttl.isSome

/-- Redis EXPIRE key t with the optional NX flag: with nx the expiry is set
only when the key currently carries none; without it the remaining
time-to-live is unconditionally reset to t. -/
def expire (t : ℕ) (nx : Bool) (expiry : Option ℕ) : Option ℕ :=
  if nx && expiry.isSome then expiry else some t

/-- Unconditional EXPIRE with the configured ttl, the call shape
redis.expire(key, Meta.ttl) used by every refresh site. -/
def expireWithTtl (m : TtlMeta) (expiry : Option ℕ) : Option ℕ :=
  match m.ttl with
  | some t => expire t false expiry
  | none => expiry

/-- AtomicRedisModel.refresh_ttl_if_needed: when should_refresh, EXPIRE the
key with the configured ttl. -/
def refresh_ttl_if_needed (m : TtlMeta) (expiry : Option ℕ) : Option ℕ :=
  if should_refresh m then expireWithTtl m expiry else expiry

/-- Expiry effect of AtomicRedisModel.asave: after JSON.SET, when ttl is not
None, EXPIRE with nx = not refresh_ttl, i.e. a set-if-not-exists expire when
refresh-on-access is disabled. -/
def asave_ttl (m : TtlMeta) (expiry : Option ℕ) : Option ℕ :=
  match m.ttl with
  | none => expiry
  | some t => expire t (!m.refresh_ttl) expiry

/-- Expiry effect of AtomicRedisModel.aget (document fetch): when
should_refresh, EXPIRE with the configured ttl. -/
def aget_ttl (m : TtlMeta) (expiry : Option ℕ) : Option ℕ :=
  if should_refresh m then expireWithTtl m expiry else expiry

/-- Expiry effect of AtomicRedisModel.aload: delegates to
refresh_ttl_if_needed. -/
def aload_ttl (m : TtlMeta) (expiry : Option ℕ) : Option ℕ :=
  refresh_ttl_if_needed m expiry

/-- Expiry effect of AtomicRedisModel.aupdate (field update): after the
pipelined JSON.SET calls, refresh_ttl_if_needed. -/
def aupdate_ttl (m : TtlMeta) (expiry : Option ℕ) : Option ℕ :=
  refresh_ttl_if_needed m expiry

/-- Expiry effect of RedisInt.aincrease (remote-immediate mutation): after
JSON.NUMINCRBY, refresh_ttl_if_needed. -/
def aincrease_ttl (m : TtlMeta) (expiry : Option ℕ) : Option ℕ :=
  refresh_ttl_if_needed m expiry

/-- Expiry effect of AtomicRedisModel.afind on each returned instance (batch
fetch): when should_refresh, a pipelined EXPIRE with the configured ttl. -/
def afind_ttl (m : TtlMeta) (expiry : Option ℕ) : Option ℕ :=
  if should_refresh m then expireWithTtl m expiry else expiry

/-- C5: with ttl None no entry point ever sets an expiry; with ttl T and
refresh-on-access enabled every entry point resets the remaining
time-to-live to T; with ttl T and refresh-on-access disabled the reads,
field updates, remote-immediate mutations and batch fetches never touch the
expiry, and save sets it only when the key carries none (first save) and
never resets an existing one. -/
theorem ttl_policy_invariant :
    (∀ (m : TtlMeta) (e : Option ℕ), m.ttl = none →
        asave_ttl m e = e ∧ aget_ttl m e = e ∧ aload_ttl m e = e ∧
        aupdate_ttl m e = e ∧ aincrease_ttl m e = e ∧ afind_ttl m e = e) ∧
    (∀ (m : TtlMeta) (e : Option ℕ) (t : ℕ), m.ttl = some t →
        m.refresh_ttl = true →
        asave_ttl m e = some t ∧ aget_ttl m e = some t ∧
        aload_ttl m e = some t ∧ aupdate_ttl m e = some t ∧
        aincrease_ttl m e = some t ∧ afind_ttl m e = some t) ∧
    (∀ (m : TtlMeta) (e : Option ℕ) (t : ℕ), m.ttl = some t →
        m.refresh_ttl = false →
        aget_ttl m e = e ∧ aload_ttl m e = e ∧ aupdate_ttl m e = e ∧
        aincrease_ttl m e = e ∧ afind_ttl m e = e ∧
        asave_ttl m none = some t ∧ (∀ r : ℕ, asave_ttl m (some r) = some r)) := by
  refine ⟨?_, ?_, ?_⟩
  · rintro ⟨ttl, refresh⟩ e hnone
    cases hnone
    refine ⟨rfl, ?_, ?_, ?_, ?_, ?_⟩ <;>
      simp [aget_ttl, aload_ttl, aupdate_ttl, aincrease_ttl, afind_ttl,
        refresh_ttl_if_needed, should_refresh]
  · rintro ⟨ttl, refresh⟩ e t hsome href
    cases hsome
    cases href
    refine ⟨?_, ?_, ?_, ?_, ?_, ?_⟩ <;>
      simp [asave_ttl, aget_ttl, aload_ttl, aupdate_ttl, aincrease_ttl,
        afind_ttl, refresh_ttl_if_needed, should_refresh, expireWithTtl, expire]
  · rintro ⟨ttl, refresh⟩ e t hsome href
    cases hsome
    cases href
    refine ⟨?_, ?_, ?_, ?_, ?_, ?_, ?_⟩ <;>
      simp [asave_ttl, aget_ttl, aload_ttl, aupdate_ttl, aincrease_ttl,
        afind_ttl, refresh_ttl_if_needed, should_refresh, expireWithTtl, expire]

/-- Witness for C5 at concrete configurations: no ttl, ttl 60 with refresh,
and ttl 60 without refresh on a key with 17 seconds left. -/
theorem ttl_policy_invariant_witness :
    (asave_ttl ⟨none, true⟩ (some 17) = some 17 ∧
      aget_ttl ⟨none, true⟩ (some 17) = some 17 ∧
      aload_ttl ⟨none, true⟩ (some 17) = some 17 ∧
      aupdate_ttl ⟨none, true⟩ (some 17) = some 17 ∧
      aincrease_ttl ⟨none, true⟩ (some 17) = some 17 ∧
      afind_ttl ⟨none, true⟩ (some 17) = some 17) ∧
    (asave_ttl ⟨some 60, true⟩ (some 17) = some 60 ∧
      aget_ttl ⟨some 60, true⟩ (some 17) = some 60 ∧
      aload_ttl ⟨some 60, true⟩ (some 17) = some 60 ∧
      aupdate_ttl ⟨some 60, true⟩ (some 17) = some 60 ∧
      aincrease_ttl ⟨some 60, true⟩ (some 17) = some 60 ∧
      afind_ttl ⟨some 60, true⟩ (some 17) = some 60) ∧
    (aget_ttl ⟨some 60, false⟩ (some 17) = some 17 ∧
      aload_ttl ⟨some 60, false⟩ (some 17) = some 17 ∧
      aupdate_ttl ⟨some 60, false⟩ (some 17) = some 17 ∧
      aincrease_ttl ⟨some 60, false⟩ (some 17) = some 17 ∧
      afind_ttl ⟨some 60, false⟩ (some 17) = some 17 ∧
      asave_ttl ⟨some 60, false⟩ none = some 60 ∧
      asave_ttl ⟨some 60, false⟩ (some 17) = some 17) :=
  ⟨ttl_policy_invariant.1 ⟨none, true⟩ (some 17) rfl,
   ttl_policy_invariant.2.1 ⟨some 60, true⟩ (some 17) 60 rfl rfl,
   let h := ttl_policy_invariant.2.2 ⟨some 60, false⟩ (some 17) 60 rfl rfl
   ⟨h.1, h.2.1, h.2.2.1, h.2.2.2.1, h.2.2.2.2.1, h.2.2.2.2.2.1,
    h.2.2.2.2.2.2 17⟩⟩

/-! ## C9: concurrent remote-immediate increments (rapyer/types/integer.py,
RedisInt.aincrease)

An aincrease call performs exactly one JSON.NUMINCRBY round trip, which the
server executes as one indivisible step. Under the cooperative concurrency
model every interleaving of N concurrent aincrease calls against one field
is therefore some sequential order of their N atomic steps. -/

/-- Atomic server-side effect of one JSON.NUMINCRBY: add the amount to the
stored number, returning the new value (the source then unwraps the
single-element response list). -/
def aincreaseStep (amount : ℤ) (stored : ℤ) : ℤ × ℤ :=
  (stored + amount, stored + amount)

/-- Final stored value after executing a schedule of atomic increments in
some order. -/
def runIncrements (amounts : List ℤ) (init : ℤ) : ℤ :=
  amounts.foldl (fun s a => (aincreaseStep a s).1) init

/-- Every increment schedule adds exactly the sum of its amounts. -/
theorem runIncrements_eq_add_sum :
    ∀ (amounts : List ℤ) (init : ℤ),
      runIncrements amounts init = init + amounts.sum := by
  intro amounts
  induction amounts with
  | nil => intro init; simp [runIncrements]
  | cons a rest ih =>
      intro init
      unfold runIncrements at ih ⊢
      rw [List.foldl_cons, List.sum_cons, ih]
      simp [aincreaseStep]
      ring

/-- A list of ones sums to its length. -/
theorem sum_of_ones :
    ∀ (l : List ℤ), (∀ a ∈ l, a = 1) → l.sum = (l.length : ℤ) := by
  intro l
  induction l with
  | nil => intro _; simp
  | cons a rest ih =>
      intro hone
      rw [List.sum_cons, hone a (List.mem_cons_self a rest)]
      rw [ih (fun x hx => hone x (List.mem_cons_of_mem a hx))]
      simp only [List.length_cons]
      push_cast
      ring

/-- C9: any interleaving of N concurrent +1 aincrease calls on the same
integer field - i.e. any schedule of N atomic increment-by-1 steps - yields
the initial value plus N, with no lost updates. -/
theorem aincrease_no_lost_updates (N : ℕ) (init : ℤ) (amounts : List ℤ)
    (hlen : amounts.length = N) (hone : ∀ a ∈ amounts, a = 1) :
    runIncrements amounts init = init + N := by
  rw [runIncrements_eq_add_sum, sum_of_ones amounts hone, hlen]

/-- Witness for C9 at the example of the spec: initial value 0 and 100
concurrent +1 increments yield 100. -/
theorem aincrease_no_lost_updates_witness :
    runIncrements (List.replicate 100 1) 0 = 100 :=
  aincrease_no_lost_updates 100 0 (List.replicate 100 1)
    (List.length_replicate 100 1)
    (fun _ ha => List.eq_of_mem_replicate ha)

/-! ## C7: batched deletion (rapyer/utils/redis.py)

The batched helper slices the key list into consecutive chunks of at most n
keys; execute_delete_batch deletes one chunk with a single multi-key DEL
inside a transactional pipeline and returns how many keys the server
actually removed; delete_in_batches either executes every chunk immediately,
summing the per-chunk delete counts and reporting committed, or - when an
outer pipeline is open on the context variable - only buffers the DEL
commands, counts the keys handed over, and reports not committed. The
keyspace is modelled as a finite set of keys. -/

/-- The batched helper: iterable[i : i + n] for i = 0, n, 2n, ...; the
source raises on n = 0 (range with step 0 is an error), so the n = 0 case is
clipped to the empty output here and every statement assumes 1 <= n. -/
def batched {α : Type} (l : List α) (n : ℕ) : List (List α) :=
  match l, n with
  | [], _ => []
  | _ :: _, 0 => []
  | a :: rest, m + 1 =>
      (a :: rest).take (m + 1) :: batched ((a :: rest).drop (m + 1)) (m + 1)
termination_by l.length
decreasing_by
  simp only [List.length_drop, List.length_cons]
  omega

/-- One step of the DEL fold: a key still present is removed and counted,
an absent key is skipped silently. -/
def delStep (acc : Finset String × ℕ) (k : String) : Finset String × ℕ :=
  if k ∈ acc.1 then (acc.1.erase k, acc.2 + 1) else acc

/-- execute_delete_batch: one atomic multi-key DEL of a chunk inside a
transactional pipeline; returns the keyspace afterwards paired with the
number of keys the server actually deleted (absent keys count zero). -/
def execute_delete_batch (store : Finset String) (keys : List String) :
    Finset String × ℕ :=
  keys.foldl delStep (store, 0)

/-- One step of the immediate-mode chunk loop: run one chunk and add its
delete count to the running total. -/
def batchStep (acc : Finset String × ℕ) (b : List String) : Finset String × ℕ :=
  ((execute_delete_batch acc.1 b).1, acc.2 + (execute_delete_batch acc.1 b).2)

/-- Immediate-mode loop of delete_in_batches: total += await
execute_delete_batch(redis, batch) for every chunk. -/
def run_delete_batches (store : Finset String) (batches : List (List String)) :
    Finset String × ℕ :=
  batches.foldl batchStep (store, 0)

/-- Result of delete_in_batches: the keyspace afterwards, the DEL commands
left buffered on an outer pipeline, the reported count, and the commit
flag. -/
structure DeleteOutcome where
  store : Finset String
  buffered : List (List String)
  total : ℕ
  committed : Bool

/-- delete_in_batches from rapyer/utils/redis.py: when the context variable
holds an open pipeline, buffer client.delete for every chunk, count the keys
handed over, and report (count, False); otherwise execute every chunk
immediately and report (total actually deleted, True). -/
def delete_in_batches (inPipeline : Bool) (store : Finset String)
    (batches : List (List String)) : DeleteOutcome :=
  if inPipeline then
    { store := store
      buffered := batches
      total := (batches.map List.length).sum
      committed := false }
  else
    { store := (run_delete_batches store batches).1
      buffered := []
      total := (run_delete_batches store batches).2
      committed := true }

/-- The count accumulator of the DEL fold is a running sum. -/
theorem delStep_shift :
    ∀ (keys : List String) (s : Finset String) (c : ℕ),
      keys.foldl delStep (s, c) =
        ((keys.foldl delStep (s, 0)).1, c + (keys.foldl delStep (s, 0)).2) := by
  intro keys
  induction keys with
  | nil => intro s c; simp
  | cons k rest ih =>
      intro s c
      rw [List.foldl_cons, List.foldl_cons]
      by_cases hk : k ∈ s
      · rw [show delStep (s, c) k = (s.erase k, c + 1) from if_pos hk,
            show delStep (s, 0) k = (s.erase k, 0 + 1) from if_pos hk]
        rw [ih _ (c + 1), ih _ (0 + 1)]
        simp only [Prod.mk.injEq]
        exact ⟨trivial, by omega⟩
      · rw [show delStep (s, c) k = (s, c) from if_neg hk,
            show delStep (s, 0) k = (s, 0) from if_neg hk]
        exact ih s c

/-- Characterization of one multi-key DEL on a duplicate-free chunk: the
resulting keyspace is the set difference, and the count is the number of
chunk keys that were present. -/
theorem execute_delete_batch_spec :
    ∀ (keys : List String) (store : Finset String), keys.Nodup →
      execute_delete_batch store keys =
        (store \ keys.toFinset, (keys.filter (fun k => k ∈ store)).length) := by
  intro keys
  induction keys with
  | nil => intro store _; simp [execute_delete_batch]
  | cons k rest ih =>
      intro store hnodup
      rw [List.nodup_cons] at hnodup
      unfold execute_delete_batch at ih ⊢
      rw [List.foldl_cons]
      by_cases hk : k ∈ store
      · rw [show delStep (store, 0) k = (store.erase k, 0 + 1) from if_pos hk]
        rw [delStep_shift rest (store.erase k) (0 + 1)]
        rw [ih (store.erase k) hnodup.2]
        have hsd : store.erase k \ rest.toFinset = store \ (k :: rest).toFinset := by
          ext x
          simp only [Finset.mem_sdiff, Finset.mem_erase, List.toFinset_cons,
            Finset.mem_insert, List.mem_toFinset]
          tauto
        have hcnt : rest.filter (fun x => x ∈ store.erase k) =
            rest.filter (fun x => x ∈ store) := by
          apply List.filter_congr
          intro x hx
          have hxk : x ≠ k := fun hcontra => hnodup.1 (hcontra ▸ hx)
          simp [Finset.mem_erase, hxk]
        rw [hsd, hcnt]
        have hfc : (k :: rest).filter (fun x => x ∈ store) =
            k :: rest.filter (fun x => x ∈ store) := by
          simp [List.filter_cons, hk]
        rw [hfc]
        simp only [List.length_cons, Prod.mk.injEq]
        exact ⟨trivial, by omega⟩
      · rw [show delStep (store, 0) k = (store, 0) from if_neg hk]
        rw [ih store hnodup.2]
        have hsd : store \ rest.toFinset = store \ (k :: rest).toFinset := by
          ext x
          simp only [Finset.mem_sdiff, List.toFinset_cons, Finset.mem_insert,
            List.mem_toFinset]
          constructor
          · rintro ⟨hxs, hxr⟩
            refine ⟨hxs, ?_⟩
            rintro (rfl | hxr2)
            · exact hk hxs
            · exact hxr hxr2
          · rintro ⟨hxs, hxr⟩
            exact ⟨hxs, fun hxr2 => hxr (Or.inr hxr2)⟩
        have hfc : (k :: rest).filter (fun x => x ∈ store) =
            rest.filter (fun x => x ∈ store) := by
          simp [List.filter_cons, hk]
        rw [hsd, hfc]

/-- The count accumulator of the chunk loop is a running sum. -/
theorem batchStep_shift :
    ∀ (batches : List (List String)) (s : Finset String) (c : ℕ),
      batches.foldl batchStep (s, c) =
        ((batches.foldl batchStep (s, 0)).1,
          c + (batches.foldl batchStep (s, 0)).2) := by
  intro batches
  induction batches with
  | nil => intro s c; simp
  | cons b rest ih =>
      intro s c
      rw [List.foldl_cons, List.foldl_cons]
      simp only [batchStep]
      rw [ih _ (c + (execute_delete_batch s b).2),
        ih _ (0 + (execute_delete_batch s b).2)]
      simp only [Prod.mk.injEq]
      exact ⟨trivial, by omega⟩

/-- Characterization of the immediate-mode loop on chunks whose
concatenation is duplicate-free: the keyspace loses exactly the listed keys
and the total counts exactly the listed keys that were present. -/
theorem run_delete_batches_spec :
    ∀ (batches : List (List String)) (store : Finset String),
      batches.flatten.Nodup →
      run_delete_batches store batches =
        (store \ batches.flatten.toFinset,
          (batches.flatten.filter (fun k => k ∈ store)).length) := by
  intro batches
  induction batches with
  | nil => intro store _; simp [run_delete_batches]
  | cons b rest ih =>
      intro store hnodup
      rw [List.flatten_cons] at hnodup ⊢
      have hb : b.Nodup := (List.nodup_append.mp hnodup).1
      have hrest : rest.flatten.Nodup := (List.nodup_append.mp hnodup).2.1
      have hdisj : ∀ x ∈ b, x ∉ rest.flatten := by
        have hd := (List.nodup_append.mp hnodup).2.2
        intro x hx hcontra
        exact hd hx hcontra
      unfold run_delete_batches at ih ⊢
      rw [List.foldl_cons]
      have hfirst : batchStep (store, 0) b =
          (store \ b.toFinset, (b.filter (fun k => k ∈ store)).length) := by
        simp only [batchStep]
        rw [execute_delete_batch_spec b store hb]
        simp
      rw [hfirst, batchStep_shift rest (store \ b.toFinset)
        (b.filter (fun k => k ∈ store)).length]
      rw [ih (store \ b.toFinset) hrest]
      have hsd : (store \ b.toFinset) \ rest.flatten.toFinset =
          store \ (b ++ rest.flatten).toFinset := by
        ext x
        simp only [Finset.mem_sdiff, List.toFinset_append, Finset.mem_union,
          List.mem_toFinset]
        tauto
      have hcnt : rest.flatten.filter (fun k => k ∈ store \ b.toFinset) =
          rest.flatten.filter (fun k => k ∈ store) := by
        apply List.filter_congr
        intro x hx
        have hxb : x ∉ b := fun hcontra => hdisj x hcontra hx
        simp [Finset.mem_sdiff, List.mem_toFinset, hxb]
      rw [hsd, hcnt]
      simp only [List.filter_append, List.length_append, Prod.mk.injEq]

/-- Every chunk produced by batched has at most n elements, and the chunks
concatenate back to the input. -/
theorem batched_spec {α : Type} (n : ℕ) (hn : 1 ≤ n) :
    ∀ (l : List α), (batched l n).flatten = l ∧ ∀ b ∈ batched l n, b.length ≤ n := by
  have key : ∀ (m : ℕ) (l : List α), l.length ≤ m →
      (batched l n).flatten = l ∧ ∀ b ∈ batched l n, b.length ≤ n := by
    intro m
    induction m with
    | zero =>
        intro l hl
        have hnil : l = [] := List.length_eq_zero.mp (Nat.le_zero.mp hl)
        subst hnil
        simp [batched]
    | succ m ih =>
        intro l hl
        rcases l with _ | ⟨a, rest⟩
        · simp [batched]
        · rcases n with _ | m2
          · omega
          · rw [show batched (a :: rest) (m2 + 1) =
                (a :: rest).take (m2 + 1) ::
                  batched ((a :: rest).drop (m2 + 1)) (m2 + 1) from by
              rw [batched]]
            have hlen : ((a :: rest).drop (m2 + 1)).length ≤ m := by
              rw [List.length_drop]
              simp only [List.length_cons] at hl ⊢
              omega
            have hrec := ih ((a :: rest).drop (m2 + 1)) hlen
            constructor
            · rw [List.flatten_cons, hrec.1]
              exact List.take_append_drop (m2 + 1) (a :: rest)
            · intro b hb
              rcases List.mem_cons.mp hb with rfl | hb2
              · exact List.length_take_le (m2 + 1) (a :: rest)
              · exact hrec.2 b hb2
  intro l
  exact key l.length l (Nat.le_refl _)

/-- C7: for every duplicate-free key list and batch limit n >= 1, the keys
are partitioned into consecutive chunks of size at most n that concatenate
back to the key list; outside any open transaction context the chunks are
deleted immediately - each as one atomic multi-key DEL - and the outcome
reports the number of keys actually deleted together with committed = true
and the keyspace minus the keys; inside an open outer transaction context
the DEL commands are only buffered, nothing is deleted, and the outcome
reports committed = false. -/
theorem delete_in_batches_correct (keys : List String) (n : ℕ)
    (store : Finset String) (hn : 1 ≤ n) (hnodup : keys.Nodup) :
    ((batched keys n).flatten = keys ∧ ∀ b ∈ batched keys n, b.length ≤ n) ∧
    (delete_in_batches false store (batched keys n)).committed = true ∧
    (delete_in_batches false store (batched keys n)).buffered = [] ∧
    (delete_in_batches false store (batched keys n)).total =
      (keys.filter (fun k => k ∈ store)).length ∧
    (delete_in_batches false store (batched keys n)).store =
      store \ keys.toFinset ∧
    (delete_in_batches true store (batched keys n)).committed = false ∧
    (delete_in_batches true store (batched keys n)).buffered = batched keys n ∧
    (delete_in_batches true store (batched keys n)).store = store := by
  have hchunks := batched_spec n hn keys
  have hflatten_nodup : (batched keys n).flatten.Nodup := by
    rw [hchunks.1]; exact hnodup
  have hrun := run_delete_batches_spec (batched keys n) store hflatten_nodup
  rw [hchunks.1] at hrun
  refine ⟨hchunks, rfl, rfl, ?_, ?_, rfl, rfl, rfl⟩
  · show (run_delete_batches store (batched keys n)).2 = _
    rw [hrun]
  · show (run_delete_batches store (batched keys n)).1 = _
    rw [hrun]

/-- Witness for C7: five keys, three present in a three-key store, batch
limit 2: the chunks concatenate back, two listed keys get deleted in
immediate mode, and buffered mode reports not committed. -/
theorem delete_in_batches_correct_witness :
    (batched ["a", "b", "c", "d", "e"] 2).flatten = ["a", "b", "c", "d", "e"] ∧
    (delete_in_batches false {"a", "c", "x"}
        (batched ["a", "b", "c", "d", "e"] 2)).total = 2 ∧
    (delete_in_batches true {"a", "c", "x"}
        (batched ["a", "b", "c", "d", "e"] 2)).committed = false := by
  have h := delete_in_batches_correct ["a", "b", "c", "d", "e"] 2 {"a", "c", "x"}
    (by decide) (by decide)
  refine ⟨h.1.1, ?_, h.2.2.2.2.2.1⟩
  rw [h.2.2.2.1]
  decide

/-! ## C6: strict versus tolerant deserialization (rapyer/base.py,
make_pickle_field_serializer; rapyer/types/dct.py, RedisDict.full_deserializer)

During a redis load (the REDIS_DUMP_FLAG context flag set), a pickled field
is reconstructed by base64-decoding and unpickling its stored text. When
that fails, a safe-load field is nulled out and its name is added to the
failed-fields set of the validation context; a strict field raises
CantSerializeRedisValueError, which aborts the whole model validation.
Stored representations and reconstructed values share one type V, and the
decode function stands for pickle.loads composed with base64 decoding,
returning none exactly on the inputs it cannot reconstruct. -/

/-- The distinct deserialization-corruption error of the source,
CantSerializeRedisValueError. -/
inductive DeserError where
  | cantSerializeRedisValue
  deriving DecidableEq

/-- The pickle_field_validator closure produced by
make_pickle_field_serializer in rapyer/base.py: a None value passes through;
outside a redis load the raw value passes through; during a redis load a
field that can be JSON and whose model prefers plain JSON passes through,
and otherwise the stored text is decoded - on failure a safe-load field
records its name in the failed set of the context and becomes None, while a
strict field raises the distinct corruption error. -/
def pickle_field_validator {V : Type} (safe_load canJson preferJson : Bool)
    (decode : V → Option V) (field : String) (v : Option V)
    (shouldRedis : Bool) (failed : List String) :
    Except DeserError (Option V × List String) :=
  match v with
  | none => Except.ok (none, failed)
  | some s =>
    if shouldRedis then
      if !(canJson && preferJson) then
        match decode s with
        | some w => Except.ok (some w, failed)
        | none =>
            if safe_load then Except.ok (none, field :: failed)
            else Except.error DeserError.cantSerializeRedisValue
      else Except.ok (some s, failed)
    else Except.ok (some s, failed)

/-- One pickled field of a document as the validators see it: its name, its
safe-load flag, its can-json flag and its stored representation. -/
structure FieldSpec (V : Type) where
  name : String
  safe_load : Bool
  canJson : Bool
  stored : Option V

/-- Whole-document reconstruction as model_validate runs it: each field
validator runs in declaration order against the shared validation context,
an uncaught corruption error aborts the whole read, and the failed-fields
set accumulates across fields. -/
def load_document {V : Type} (preferJson : Bool) (decode : V → Option V) :
    List (FieldSpec V) → List String →
    Except DeserError (List (String × Option V) × List String)
  | [], failed => Except.ok ([], failed)
  | f :: rest, failed =>
    match pickle_field_validator f.safe_load f.canJson preferJson decode
        f.name f.stored true failed with
    | Except.error e => Except.error e
    | Except.ok (v, failed2) =>
      match load_document preferJson decode rest failed2 with
      | Except.error e => Except.error e
      | Except.ok (vs, failedF) => Except.ok ((f.name, v) :: vs, failedF)

/-- Modelled from the spec: try_deserialize_item lives in
rapyer/types/base.py, which is absent from the provided sources (only its
callers in rapyer/types/dct.py are present). Per the specification it
attempts to reconstruct one element of unknown type and signals the skip
sentinel - here none - exactly when the element cannot be reconstructed. -/
def try_deserialize_item {V : Type} (decode : V → Option V) (item : V) :
    Option V :=
  decode item

/-- RedisDict.full_deserializer from rapyer/types/dct.py: outside a redis
load the mapping passes through; during a redis load every entry runs
through try_deserialize_item and the entries that signal the skip sentinel
are dropped, keeping the surviving entries under their keys. -/
def dict_full_deserializer {V : Type} (decode : V → Option V)
    (value : List (String × V)) (shouldRedis : Bool) : List (String × V) :=
  if shouldRedis then
    value.filterMap
      (fun kv => (try_deserialize_item decode kv.2).map (fun w => (kv.1, w)))
  else value

/-- Modelled from the spec: the ordered-list wrapper, whose source file is
absent from the provided sources, applies the same tolerant skip semantics
as the mapping - during a redis load each element runs through
try_deserialize_item and elements signalling the skip sentinel are dropped,
so only the offending elements disappear instead of the whole collection
aborting. -/
def list_full_deserializer {V : Type} (decode : V → Option V)
    (value : List V) (shouldRedis : Bool) : List V :=
  if shouldRedis then value.filterMap (try_deserialize_item decode) else value

/-- C6: a corrupted strict field raises the distinct corruption error and
the whole document read aborts; a corrupted tolerant field is nulled out,
its name is recorded in the failed-fields set, and the remaining fields are
still reconstructed; and inside collections of unknown-typed elements only
the offending element or key is skipped - a 3-element list with its first
element corrupted loads as the 2-element list of the survivors. -/
theorem safe_load_policy :
    (∀ (V : Type) (preferJson : Bool) (decode : V → Option V) (field : String)
        (s : V) (failed : List String), decode s = none →
        pickle_field_validator false false preferJson decode field (some s)
          true failed = Except.error DeserError.cantSerializeRedisValue) ∧
    (∀ (V : Type) (preferJson : Bool) (decode : V → Option V) (field : String)
        (s : V) (failed : List String), decode s = none →
        pickle_field_validator true false preferJson decode field (some s)
          true failed = Except.ok (none, field :: failed)) ∧
    (∀ (V : Type) (preferJson : Bool) (decode : V → Option V)
        (f : FieldSpec V) (rest : List (FieldSpec V)) (failed : List String)
        (s : V), f.stored = some s → decode s = none → f.canJson = false →
        (f.safe_load = false →
          load_document preferJson decode (f :: rest) failed =
            Except.error DeserError.cantSerializeRedisValue) ∧
        (f.safe_load = true →
          load_document preferJson decode (f :: rest) failed =
            match load_document preferJson decode rest (f.name :: failed) with
            | Except.error e => Except.error e
            | Except.ok (vs, failedF) =>
                Except.ok ((f.name, none) :: vs, failedF))) ∧
    (∀ (V : Type) (decode : V → Option V) (value : List V),
        list_full_deserializer decode value true =
          value.filterMap decode) ∧
    (∀ (V : Type) (decode : V → Option V) (value : List (String × V)),
        dict_full_deserializer decode value true =
          value.filterMap (fun kv => (decode kv.2).map (fun w => (kv.1, w)))) ∧
    list_full_deserializer
        (fun x => if x = "CORRUPT" then none else some x)
        ["CORRUPT", "42", "true"] true = ["42", "true"] := by
  refine ⟨?_, ?_, ?_, ?_, ?_, ?_⟩
  · intro V preferJson decode field s failed hdec
    simp [pickle_field_validator, hdec]
  · intro V preferJson decode field s failed hdec
    simp [pickle_field_validator, hdec]
  · intro V preferJson decode f rest failed s hstored hdec hcj
    constructor
    · intro hstrict
      unfold load_document
      rw [hstored, hcj, hstrict]
      simp [pickle_field_validator, hdec]
    · intro htol
      have hval : pickle_field_validator f.safe_load f.canJson preferJson decode
          f.name f.stored true failed = Except.ok (none, f.name :: failed) := by
        rw [hstored, hcj, htol]
        simp [pickle_field_validator, hdec]
      rw [show load_document preferJson decode (f :: rest) failed =
          match pickle_field_validator f.safe_load f.canJson preferJson decode
              f.name f.stored true failed with
          | Except.error e => Except.error e
          | Except.ok (v, failed2) =>
            match load_document preferJson decode rest failed2 with
            | Except.error e => Except.error e
            | Except.ok (vs, failedF) => Except.ok ((f.name, v) :: vs, failedF)
        from rfl]
      rw [hval]
  · intro V decode value
    rfl
  · intro V decode value
    rfl
  · decide

/-- Witness for C6: one strict and one tolerant corrupted field over string
values, where CORRUPT is the only undecodable representation. -/
theorem safe_load_policy_witness :
    pickle_field_validator false false false
        (fun x => if x = "CORRUPT" then none else some x) "payload"
        (some "CORRUPT") true [] =
      Except.error DeserError.cantSerializeRedisValue ∧
    pickle_field_validator true false false
        (fun x => if x = "CORRUPT" then none else some x) "payload"
        (some "CORRUPT") true [] =
      Except.ok (none, ["payload"]) ∧
    list_full_deserializer
        (fun x => if x = "CORRUPT" then none else some x)
        ["CORRUPT", "42", "true"] true = ["42", "true"] :=
  ⟨safe_load_policy.1 String false
      (fun x => if x = "CORRUPT" then none else some x) "payload" "CORRUPT" []
      (by decide),
   safe_load_policy.2.1 String false
      (fun x => if x = "CORRUPT" then none else some x) "payload" "CORRUPT" []
      (by decide),
   safe_load_policy.2.2.2.2.2⟩

/-! ## C10: AtomicRedisModel.afind (rapyer/base.py)

afind separates its positional arguments into string keys and query
expressions. When both are present it logs a warning and the expressions are
ignored. With keys, each key without a colon gets the class prefix, and a
missing document raises KeyNotFound because raise_on_missing is set exactly
when keys were provided; in expression-only or argument-free calls, missing
documents and documents that fail model validation are silently skipped.
The store, the model parser and the search index are modelled as oracle
functions. -/

/-- Oracle environment of one afind call: mget is the per-key JSON.MGET
result (none for an absent document), parse is create_redis_model (none on
a validation error), searchKeys resolves a combined query expression to
document ids, allKeys is the key-pattern scan of afind_keys, and initials is
class_key_initials. -/
structure FindEnv where
  mget : String → Option String
  parse : String → Option String
  searchKeys : List ℕ → List String
  allKeys : List String
  initials : String

/-- One positional afind argument: a string key or an opaque query
expression. -/
inductive FindArg where
  | key (s : String)
  | expr (e : ℕ)
  deriving DecidableEq

/-- Selector for the isinstance(arg, str) split in afind. -/
def isKeyArg : FindArg → Bool
  | FindArg.key _ => true
  | FindArg.expr _ => false

/-- The string payload of a key argument. -/
def keyOf : FindArg → Option String
  | FindArg.key s => some s
  | FindArg.expr _ => none

/-- The payload of an expression argument. -/
def exprOf : FindArg → Option ℕ
  | FindArg.key _ => none
  | FindArg.expr e => some e

/-- Key normalization of afind: k if a colon occurs in k else the class
initials, a colon and k. -/
def normalizeKey (initials k : String) : String :=
  if (Char.ofNat 58) ∈ k.data then k else initials ++ ":" ++ k

/-- The targeted_keys computation of afind: keys win over expressions, the
expression search runs only without keys, and with no arguments at all the
key-pattern scan supplies every key of the type. -/
def afind_targets (env : FindEnv) (args : List FindArg) : List String :=
  if (args.filterMap keyOf).isEmpty = false then
    (args.filterMap keyOf).map (normalizeKey env.initials)
  else if (args.filterMap exprOf).isEmpty = false then
    env.searchKeys (args.filterMap exprOf)
  else env.allKeys

/-- The KeyNotFound error of the source. -/
inductive FindError where
  | keyNotFound
  deriving DecidableEq

/-- The fetch loop of afind over the targeted keys: a missing document
raises KeyNotFound when raise_on_missing is set and is skipped otherwise,
and a document that create_redis_model cannot validate is skipped in every
mode. -/
def collectFound (env : FindEnv) (raiseOnMissing : Bool) :
    List String → Except FindError (List String)
  | [] => Except.ok []
  | k :: rest =>
    match env.mget k with
    | none =>
        if raiseOnMissing then Except.error FindError.keyNotFound
        else collectFound env raiseOnMissing rest
    | some doc =>
      match env.parse doc with
      | none => collectFound env raiseOnMissing rest
      | some m =>
        match collectFound env raiseOnMissing rest with
        | Except.error e => Except.error e
        | Except.ok ms => Except.ok (m :: ms)

/-- afind from rapyer/base.py: split the arguments, warn (without raising)
when keys and expressions are mixed, set raise_on_missing exactly when keys
were provided, resolve the targeted keys and run the fetch loop. The second
component records whether the mixed-arguments warning was logged. -/
def afind (env : FindEnv) (args : List FindArg) :
    Except FindError (List String) × Bool :=
  (collectFound env (!(args.filterMap keyOf).isEmpty)
      (afind_targets env args),
    !(args.filterMap keyOf).isEmpty && !(args.filterMap exprOf).isEmpty)

/-- Filtering the arguments to the key arguments keeps every key and drops
every expression. -/
theorem filter_keyArgs (args : List FindArg) :
    (args.filter isKeyArg).filterMap keyOf = args.filterMap keyOf ∧
    (args.filter isKeyArg).filterMap exprOf = [] := by
  induction args with
  | nil => exact ⟨rfl, rfl⟩
  | cons a rest ih =>
      rcases a with s | e
      · refine ⟨?_, ?_⟩
        · rw [show (FindArg.key s :: rest).filter isKeyArg =
              FindArg.key s :: rest.filter isKeyArg from rfl]
          rw [show (FindArg.key s :: rest.filter isKeyArg).filterMap keyOf =
              s :: (rest.filter isKeyArg).filterMap keyOf from rfl]
          rw [ih.1]
          rfl
        · rw [show (FindArg.key s :: rest).filter isKeyArg =
              FindArg.key s :: rest.filter isKeyArg from rfl]
          rw [show (FindArg.key s :: rest.filter isKeyArg).filterMap exprOf =
              (rest.filter isKeyArg).filterMap exprOf from rfl]
          exact ih.2
      · refine ⟨?_, ?_⟩
        · rw [show (FindArg.expr e :: rest).filter isKeyArg =
              rest.filter isKeyArg from rfl]
          rw [ih.1]
          rfl
        · rw [show (FindArg.expr e :: rest).filter isKeyArg =
              rest.filter isKeyArg from rfl]
          exact ih.2

/-- With raise_on_missing set, one absent targeted key makes the fetch loop
raise KeyNotFound. -/
theorem collectFound_raises (env : FindEnv) :
    ∀ (l : List String), (∃ k ∈ l, env.mget k = none) →
      collectFound env true l = Except.error FindError.keyNotFound := by
  intro l
  induction l with
  | nil => rintro ⟨k, hk, _⟩; cases hk
  | cons k rest ih =>
      rintro ⟨k2, hk2, hmiss⟩
      rcases List.mem_cons.mp hk2 with rfl | hk2r
      · simp [collectFound, hmiss]
      · rcases hk : env.mget k with _ | doc
        · simp [collectFound, hk]
        · have hrec := ih ⟨k2, hk2r, hmiss⟩
          rcases hp : env.parse doc with _ | m
          · simp [collectFound, hk, hp, hrec]
          · simp [collectFound, hk, hp, hrec]

/-- Without raise_on_missing, the fetch loop returns exactly the documents
that are present and parse, in order, skipping the rest silently. -/
theorem collectFound_skips (env : FindEnv) :
    ∀ (l : List String),
      collectFound env false l =
        Except.ok (l.filterMap (fun k => (env.mget k).bind env.parse)) := by
  intro l
  induction l with
  | nil => rfl
  | cons k rest ih =>
      rcases hk : env.mget k with _ | doc
      · simp [collectFound, hk, ih, List.filterMap_cons]
      · rcases hp : env.parse doc with _ | m
        · simp [collectFound, hk, hp, ih, List.filterMap_cons]
        · simp [collectFound, hk, hp, ih, List.filterMap_cons]

/-- C10: mixing keys and expressions only sets the warning flag and gives
the same result as the call with the expressions removed - the fetch runs by
the keys alone and no error is raised for the mixture; when at least one key
argument is given, an absent document among the targeted keys raises
KeyNotFound; and in expression-only or argument-free calls the result is the
list of documents that exist and validate, with absent and unparsable
documents silently skipped and no error possible. -/
theorem afind_mixed_and_missing :
    (∀ (env : FindEnv) (args : List FindArg),
        (args.filterMap keyOf).isEmpty = false →
        (args.filterMap exprOf).isEmpty = false →
        (afind env args).2 = true ∧
        (afind env args).1 = (afind env (args.filter isKeyArg)).1) ∧
    (∀ (env : FindEnv) (args : List FindArg),
        (args.filterMap keyOf).isEmpty = false →
        (∃ k ∈ afind_targets env args, env.mget k = none) →
        (afind env args).1 = Except.error FindError.keyNotFound) ∧
    (∀ (env : FindEnv) (args : List FindArg),
        (args.filterMap keyOf).isEmpty = true →
        (afind env args).1 =
          Except.ok ((afind_targets env args).filterMap
            (fun k => (env.mget k).bind env.parse))) := by
  refine ⟨?_, ?_, ?_⟩
  · intro env args hkeys hexprs
    have hfk := filter_keyArgs args
    refine ⟨?_, ?_⟩
    · unfold afind
      rw [hkeys, hexprs]
      rfl
    · unfold afind afind_targets
      rw [hfk.1, hfk.2, hkeys]
      rw [if_pos rfl, if_pos rfl]
  · intro env args hkeys hmiss
    unfold afind
    rw [hkeys]
    exact collectFound_raises env (afind_targets env args) hmiss
  · intro env args hkeys
    unfold afind
    rw [hkeys]
    exact collectFound_skips env (afind_targets env args)

/-- Witness for C10 on a concrete store holding only document Doc:1: a mixed
call warns, a key call naming the absent Doc:9 raises KeyNotFound, and an
argument-free call returns the single surviving document. -/
theorem afind_mixed_and_missing_witness :
    (afind
        ⟨fun k => if k = "Doc:1" then some "doc1" else none,
         fun d => if d = "doc1" then some "m1" else none,
         fun _ => ["Doc:9"], ["Doc:1", "Doc:9"], "Doc"⟩
        [FindArg.key "Doc:1", FindArg.expr 0]).2 = true ∧
    (afind
        ⟨fun k => if k = "Doc:1" then some "doc1" else none,
         fun d => if d = "doc1" then some "m1" else none,
         fun _ => ["Doc:9"], ["Doc:1", "Doc:9"], "Doc"⟩
        [FindArg.key "1", FindArg.key "9"]).1 =
      Except.error FindError.keyNotFound ∧
    (afind
        ⟨fun k => if k = "Doc:1" then some "doc1" else none,
         fun d => if d = "doc1" then some "m1" else none,
         fun _ => ["Doc:9"], ["Doc:1", "Doc:9"], "Doc"⟩
        []).1 = Except.ok ["m1"] := by
  refine ⟨(afind_mixed_and_missing.1
      ⟨fun k => if k = "Doc:1" then some "doc1" else none,
       fun d => if d = "doc1" then some "m1" else none,
       fun _ => ["Doc:9"], ["Doc:1", "Doc:9"], "Doc"⟩
      [FindArg.key "Doc:1", FindArg.expr 0] (by decide) (by decide)).1, ?_, ?_⟩
  · rw [afind_mixed_and_missing.2.1
      ⟨fun k => if k = "Doc:1" then some "doc1" else none,
       fun d => if d = "doc1" then some "m1" else none,
       fun _ => ["Doc:9"], ["Doc:1", "Doc:9"], "Doc"⟩
      [FindArg.key "1", FindArg.key "9"] (by decide)
      ⟨"Doc:9", by decide, by decide⟩]
  · rw [afind_mixed_and_missing.2.2
      ⟨fun k => if k = "Doc:1" then some "doc1" else none,
       fun d => if d = "doc1" then some "m1" else none,
       fun _ => ["Doc:9"], ["Doc:1", "Doc:9"], "Doc"⟩
      [] (by decide)]
    rfl

end Rapyer
